import Mathlib

/-!
Verification development for the GHC interval-timer service (`rts/Timer.c`)
and the `fdReady` readiness primitive (`libraries/base/cbits/inputReady.c`).

The C code is embedded shallowly:

* `Time` is modelled as `Int`, counting nanoseconds (GHC's `TIME_RESOLUTION`
  is 10^9, so `MSToTime ms = ms * 10^6` and `TimeToMS t = t / 10^6`).
  Every division in the embedded code happens on non-negative operands
  (each call site is guarded by an earlier `remaining < 0` test), where C's
  truncating division and Lean's Euclidean `/` on `Int` agree.
* System calls (`poll`, `select`, `WaitForMultipleObjects`,
  `getProcessElapsedTime`) are modelled by environment functions supplied to
  the loops: the environment maps the call number (and the timeout argument
  actually passed to the call) to the call's outcome, so theorems can
  quantify over all scheduler/clock behaviours.
* Loops carry a fuel parameter and return `none` when the fuel runs out;
  all claims are about runs in which the loop returns.
-/

/-- `MSToTime` from `Rts/Time.h`: milliseconds to `Time` (nanoseconds). -/
def msToTime (ms : Int) : Int := ms * 1000000

/-- `TimeToMS` from `Rts/Time.h`: `Time` (nanoseconds) to milliseconds.
C truncating division; all call sites in the embedded code have `t ≥ 0`,
where this agrees with Lean's `/` on `Int`. -/
def timeToMS (t : Int) : Int := t / 1000000

/-- `TimeToUS` from `Rts/Time.h`: `Time` (nanoseconds) to microseconds. -/
def timeToUS (t : Int) : Int := t / 1000

/-- C `INT_MAX` (32-bit). -/
def intMax : Int := 2147483647

/-- Windows `INFINITE` sentinel for the `WaitFor*Object()` family:
the maximum `DWORD` value, `0xFFFFFFFF`. -/
def INFINITE : Nat := 4294967295

/-- Windows `LONG_MAX` (`long` is 32 bits on Windows). -/
def longMax : Int := 2147483647

/-- `FD_SETSIZE` as raised at the top of `inputReady.c` for Windows. -/
def FD_SETSIZE : Int := 1024

/-- `compute_poll_timeout` from `inputReady.c`: timeout (in ms) passed to
`poll()`.  `-1` means wait indefinitely.  A fractional-millisecond
`remaining` is rounded up so the timeout is always `≥ remaining`. -/
def compute_poll_timeout (infinite : Bool) (remaining : Int) : Int :=
  if infinite then -1
  else if remaining < 0 then 0
  else if msToTime intMax < remaining then intMax
  else
    let remaining_ms := timeToMS remaining
    if remaining ≠ msToTime remaining_ms then remaining_ms + 1
    else remaining_ms

/-- Outcome of one `poll()`/`select()` system call together with the
`getProcessElapsedTime()` reading that the retry branch takes right after
it: `res` is the syscall's return value (`> 0` ready, `0` timed out,
`< 0` error/EINTR), `now` the clock value read after the call returned. -/
structure PollCall where
  res : Int
  now : Int
deriving DecidableEq

/-- The `while (true)` loop of `fdReady`'s single-descriptor `poll()` path
(non-Windows branch of `inputReady.c`).

The environment `env` maps the syscall number and the timeout passed to
`poll()` to that call's outcome.  State: `base` is the clock reading at
which `remaining` was last computed (`base + remaining = endTime` after any
recompute), `n` counts issued syscalls.  Returns
`(return value, base, remaining, total syscalls)` at the returning
iteration, or `none` when the fuel runs out. -/
def fdReadyPollLoop (env : Nat → Int → PollCall) (infinite : Bool)
    (endTime : Int) : Nat → Int → Int → Nat → Option (Int × Int × Int × Nat)
  | 0, _, _, _ => none
  | fuel + 1, base, remaining, n =>
    let c := env n (compute_poll_timeout infinite remaining)
    if c.res = 0 ∧ infinite = false ∧ msToTime intMax < remaining then
      fdReadyPollLoop env infinite endTime fuel c.now (endTime - c.now) (n + 1)
    else
      some (if 0 < c.res then 1 else c.res, base, remaining, n + 1)

/-- `fdReady` from `inputReady.c`, the non-Windows (`poll()`) path:
`infinite := msecs < 0`; `endTime` is recorded once at call start
(left `0` when `msecs ≤ 0`, exactly as the C code does); the initial
`remaining` is `MSToTime msecs`. `startTime` is the
`getProcessElapsedTime()` reading taken when computing `endTime`. -/
def fdReady (env : Nat → Int → PollCall) (startTime msecs : Int)
    (fuel : Nat) : Option (Int × Int × Int × Nat) :=
  fdReadyPollLoop env (decide (msecs < 0))
    (if 0 < msecs then startTime + msToTime msecs else 0)
    fuel startTime (msToTime msecs) 0

/-- `compute_windows_select_timeout` from `inputReady.c`: `none` models the
`NULL` pointer (wait indefinitely), otherwise `(tv_sec, tv_usec)`. -/
def compute_windows_select_timeout (infinite : Bool) (remaining : Int) :
    Option (Int × Int) :=
  if infinite then none
  else if remaining < 0 then some (0, 0)
  else if msToTime longMax < remaining then some (longMax, longMax)
  else some (timeToMS remaining / 1000, timeToUS remaining % 1000000)

/-- The `while (true)` loop of `fdReady`'s Windows socket (`select()`) path.
Same environment convention as `fdReadyPollLoop`; returns
`(return value, remaining, total syscalls)`. -/
def selectLoop (env : Nat → Option (Int × Int) → PollCall) (infinite : Bool)
    (endTime : Int) : Nat → Int → Nat → Option (Int × Int × Nat)
  | 0, _, _ => none
  | fuel + 1, remaining, n =>
    let c := env n (compute_windows_select_timeout infinite remaining)
    if c.res = 0 ∧ infinite = false ∧ msToTime intMax < remaining then
      selectLoop env infinite endTime fuel (endTime - c.now) (n + 1)
    else
      some (if 0 < c.res then 1 else c.res, remaining, n + 1)

/-- Result of the Windows socket branch of `fdReady`: either the process is
aborted by `barf()` (when `fd >= FD_SETSIZE || fd < 0`), or the `select()`
loop runs. -/
inductive SockResult
  | fatalBarf
  | loopResult (r : Option (Int × Int × Nat))
deriving DecidableEq

/-- The `isSock` branch of `fdReady` on Windows: the descriptor-range check
(`barf` when out of range for an `fd_set`), then the `select()` loop. -/
def fdReadyWinSock (env : Nat → Option (Int × Int) → PollCall) (fd : Int)
    (infinite : Bool) (endTime remaining : Int) (fuel : Nat) : SockResult :=
  if FD_SETSIZE ≤ fd ∨ fd < 0 then .fatalBarf
  else .loopResult (selectLoop env infinite endTime fuel remaining 0)

/-- `compute_WaitForObject_timeout` from `inputReady.c`: the `DWORD`
timeout passed to `WaitForMultipleObjects()`.  The `.toNat` models the
assignment of `TimeToMS(remaining)` to a `DWORD`; in that branch
`0 ≤ remaining < MSToTime INFINITE` so the value fits and no truncation
occurs. -/
def compute_WaitForObject_timeout (infinite : Bool) (remaining : Int) : Nat :=
  if infinite then INFINITE
  else if remaining < 0 then 0
  else if msToTime (INFINITE : Int) ≤ remaining then INFINITE - 1
  else
    let remaining_ms := (timeToMS remaining).toNat
    if remaining ≠ msToTime (remaining_ms : Int) then remaining_ms + 1
    else remaining_ms

/-- Outcome of one `WaitForObjectOrThreadInterrupt()` call:
`WAIT_FAILED`, `WAIT_TIMEOUT`, or `WAIT_OBJECT_0 + idx` where index `0` is
the file handle and index `1` the per-thread interrupt event. -/
inductive WaitRes
  | failed
  | timedOut
  | object (idx : Nat)
deriving DecidableEq

/-- Return value of `fdReady` on the Windows handle paths: `ret v eintr`
is a normal `return v` (with `eintr` recording whether `errno` was set to
`EINTR` just before), `fatalError` is a `barf()` (process abort). -/
inductive FdReturn
  | ret (v : Int) (errnoEINTR : Bool)
  | fatalError
deriving DecidableEq

/-- The `default:` (generic handle) loop of `fdReady` on Windows:
multi-wait on the handle and the interrupt event.  `env` maps the call
number and the `DWORD` timeout passed to the wait to its outcome; `nowAt`
gives the `getProcessElapsedTime()` reading of the retry branch.  Returns
the `FdReturn` and the number of native waits issued. -/
def genericWaitLoop (env : Nat → Nat → WaitRes) (nowAt : Nat → Int)
    (infinite : Bool) (endTime : Int) :
    Nat → Int → Nat → Option (FdReturn × Nat)
  | 0, _, _ => none
  | fuel + 1, remaining, n =>
    match env n (compute_WaitForObject_timeout infinite remaining) with
    | .failed => some (.ret (-1) false, n + 1)
    | .timedOut =>
      if infinite = false ∧ remaining < msToTime (INFINITE : Int) then
        some (.ret 0 false, n + 1)
      else
        genericWaitLoop env nowAt infinite endTime fuel (endTime - nowAt n) (n + 1)
    | .object 0 => some (.ret 1 false, n + 1)
    | .object 1 => some (.ret (-1) true, n + 1)
    | .object (_ + 2) => some (.fatalError, n + 1)

/-- Windows `KEY_EVENT` record type tag (`0x0001`). -/
def KEY_EVENT : Nat := 1

/-- One `INPUT_RECORD` of a console input buffer, restricted to the fields
`fdReady` inspects: `EventType`, `Event.KeyEvent.bKeyDown`,
`Event.KeyEvent.uChar.AsciiChar`. -/
structure ConsoleEvent where
  eventType : Nat
  keyDown : Bool
  asciiChar : Nat
deriving DecidableEq

/-- The condition under which `fdReady` treats a buffered console event as
a proper keypress: a `KEY_EVENT` that is key-down with a non-null ASCII
character. -/
def isKeyDownEvent (e : ConsoleEvent) : Bool :=
  e.eventType == KEY_EVENT && e.keyDown && e.asciiChar != 0

/-- The inner "discard non-key events" loop of the `FILE_TYPE_CHAR` case:
`PeekConsoleInput` inspects the head of the buffer; a non-keypress event is
consumed by `ReadConsoleInput` and discarded; a proper keypress makes
`fdReady` `return 1` (the keypress itself is only peeked, never consumed);
an empty buffer (`count == 0`) breaks out to wait again (`none`).
The console API calls are modelled as succeeding; their failure branches
in the source return `1` or `-1` without touching the buffer. -/
def drainConsoleInput : List ConsoleEvent → Option Int × List ConsoleEvent
  | [] => (none, [])
  | e :: rest =>
    if isKeyDownEvent e then (some 1, e :: rest)
    else drainConsoleInput rest

/-- The `FILE_TYPE_CHAR` (console) loop of `fdReady` on Windows: multi-wait
on the handle and the interrupt event; when the handle signals, drain
non-keypress events and either return `1` (real keystroke) or wait again
with a recomputed `remaining`.  Returns the `FdReturn`, the final console
buffer, and the number of native waits issued. -/
def consoleWaitLoop (env : Nat → Nat → WaitRes) (nowAt : Nat → Int)
    (infinite : Bool) (endTime : Int) :
    Nat → Int → List ConsoleEvent → Nat →
    Option (FdReturn × List ConsoleEvent × Nat)
  | 0, _, _, _ => none
  | fuel + 1, remaining, buf, n =>
    match env n (compute_WaitForObject_timeout infinite remaining) with
    | .failed => some (.ret (-1) false, buf, n + 1)
    | .timedOut =>
      if infinite = false ∧ remaining < msToTime (INFINITE : Int) then
        some (.ret 0 false, buf, n + 1)
      else
        consoleWaitLoop env nowAt infinite endTime fuel (endTime - nowAt n)
          buf (n + 1)
    | .object 0 =>
      match drainConsoleInput buf with
      | (some v, buf2) => some (.ret v false, buf2, n + 1)
      | (none, buf2) =>
        consoleWaitLoop env nowAt infinite endTime fuel (endTime - nowAt n)
          buf2 (n + 1)
    | .object 1 => some (.ret (-1) true, buf, n + 1)
    | .object (_ + 2) => some (.fatalError, buf, n + 1)

/-- Outcome of `PeekNamedPipe`: success with the available byte count, or
failure with a `GetLastError()` code. -/
inductive PipePeek
  | ok (avail : Nat)
  | failedErr (code : Nat)
deriving DecidableEq

/-- Windows error code `ERROR_BROKEN_PIPE`. -/
def ERROR_BROKEN_PIPE : Nat := 109

/-- Windows error code `ERROR_INVALID_HANDLE`. -/
def ERROR_INVALID_HANDLE : Nat := 6

/-- Windows error code `ERROR_INVALID_FUNCTION`. -/
def ERROR_INVALID_FUNCTION : Nat := 1

/-- What the `FILE_TYPE_PIPE` case of `fdReady` does:
`notReadyAfterSleep ms` is `return 0` preceded by `Sleep(ms)`,
`notReady` is `return 0` with no sleep, `fallThroughDefault` is the
fall-through to the generic `WaitForMultipleObjects` case. -/
inductive PipeOutcome
  | ready
  | notReadyAfterSleep (ms : Nat)
  | notReady
  | errReturn
  | fallThroughDefault
deriving DecidableEq

/-- The `FILE_TYPE_PIPE` case of `fdReady` on Windows: a non-blocking
`PeekNamedPipe`; zero available bytes with a caller that intends to block
(`infinite || remaining > 0`) sleeps 1 ms (the smallest possible Windows
sleep) and returns not-ready; `ERROR_BROKEN_PIPE` reports ready;
`ERROR_INVALID_HANDLE`/`ERROR_INVALID_FUNCTION` fall through to the
generic case; any other failure returns `-1`. -/
def fdReadyPipe (infinite : Bool) (remaining : Int) (peek : PipePeek) :
    PipeOutcome :=
  match peek with
  | .ok avail =>
    if avail ≠ 0 then .ready
    else if infinite || decide (0 < remaining) then .notReadyAfterSleep 1
    else .notReady
  | .failedErr rc =>
    if rc = ERROR_BROKEN_PIPE then .ready
    else if rc ≠ ERROR_INVALID_HANDLE ∧ rc ≠ ERROR_INVALID_FUNCTION then
      .errReturn
    else .fallThroughDefault

/-- `recent_activity` values (`ACTIVITY_YES`, `ACTIVITY_MAYBE_NO`,
`ACTIVITY_INACTIVE`, `ACTIVITY_DONE_GC`). -/
inductive Activity
  | yes
  | maybeNo
  | inactive
  | doneGC
deriving DecidableEq

/-- The `RtsFlags` fields and build-time configuration `handle_tick`
reads.  `threaded` is `THREADED_RTS`, `mingw` is `mingw32_HOST_OS`,
`usePthreadItimer` is `USE_PTHREAD_FOR_ITIMER`, `profilingBuild` is the
`PROFILING` build flag. -/
structure RtsConfig where
  ctxtSwitchTicks : Int
  idleGCDelayTime : Int
  tickInterval : Int
  doIdleGC : Bool
  profilingBuild : Bool
  doHeapProfile : Bool
  doCostCentres : Bool
  threaded : Bool
  mingw : Bool
  usePthreadItimer : Bool
deriving DecidableEq

/-- The mutable state `handle_tick` reads and writes:
`ticks_to_ctxt_switch`, `ticks_to_gc`, `recent_activity`. -/
structure TickState where
  ticksToCtxtSwitch : Int
  ticksToGC : Int
  recentActivity : Activity
deriving DecidableEq

/-- The external calls one `handle_tick` invocation makes, in order:
`handleProfTick()`, `contextSwitchAllCapabilities()`,
`SetEvent(rts_getInterruptOSThreadEvent())`,
`interruptOSThreadTimer(*mainThreadId)`, `wakeUpRts()`, `stopTimer()`. -/
structure TickEffects where
  profTick : Bool
  ctxtSwitchRequested : Bool
  interruptEventSet : Bool
  osThreadInterrupted : Bool
  idleGCWakeup : Bool
  stopTimerCalled : Bool
deriving DecidableEq

/-- `handle_tick` from `rts/Timer.c`: the context-switch countdown
(guarded by `ctxtSwitchTicks > 0`, with the non-threaded interruption of
blocking syscalls), then the idle-GC activity state machine. -/
def handle_tick (cfg : RtsConfig) (s : TickState) : TickState × TickEffects :=
  let ctxt :=
    if 0 < cfg.ctxtSwitchTicks then
      let t := s.ticksToCtxtSwitch - 1
      if t ≤ 0 then (cfg.ctxtSwitchTicks, true) else (t, false)
    else (s.ticksToCtxtSwitch, false)
  let tc := ctxt.1
  let req := ctxt.2
  let evtSet := req && !cfg.threaded && cfg.mingw
  let osIntr := req && !cfg.threaded && (cfg.usePthreadItimer || cfg.mingw)
  match s.recentActivity with
  | .yes =>
    (⟨tc, cfg.idleGCDelayTime / cfg.tickInterval, .maybeNo⟩,
     ⟨true, req, evtSet, osIntr, false, false⟩)
  | .maybeNo =>
    if s.ticksToGC = 0 then
      if cfg.doIdleGC then
        (⟨tc, s.ticksToGC, .inactive⟩,
         ⟨true, req, evtSet, osIntr, cfg.threaded, false⟩)
      else
        (⟨tc, s.ticksToGC, .doneGC⟩,
         ⟨true, req, evtSet, osIntr, false,
          if cfg.profilingBuild then !(cfg.doHeapProfile || cfg.doCostCentres)
          else true⟩)
    else
      (⟨tc, s.ticksToGC - 1, .maybeNo⟩, ⟨true, req, evtSet, osIntr, false, false⟩)
  | .inactive =>
    (⟨tc, s.ticksToGC, .inactive⟩, ⟨true, req, evtSet, osIntr, false, false⟩)
  | .doneGC =>
    (⟨tc, s.ticksToGC, .doneGC⟩, ⟨true, req, evtSet, osIntr, false, false⟩)

/-- Iterate `handle_tick` with no intervening activity marking, counting
the `wakeUpRts()` idle-GC requests issued. -/
def tickRun (cfg : RtsConfig) (s : TickState) : Nat → TickState × Nat
  | 0 => (s, 0)
  | n + 1 =>
    let p := tickRun cfg s n
    let q := handle_tick cfg p.1
    (q.1, p.2 + (if q.2.idleGCWakeup then 1 else 0))

/-- A `startTimer()` or `stopTimer()` call. -/
inductive TimerOp
  | start
  | stop
deriving DecidableEq

/-- `timer_disabled` is a `StgWord`: a 64-bit machine word, so the atomic
increment/decrement wrap modulo `2^64 = 18446744073709551616`. -/
def timerWordSize : Nat := 18446744073709551616

/-- The timer-control state of `rts/Timer.c`: the `timer_disabled` word
and whether the platform ticker is armed.

Modelled from the spec: the bodies of `initTicker`/`startTicker`/
`stopTicker` are not among the sources (`rts/posix/Itimer.c` only selects
a variant); per the spec's PlatformTicker description, `startTicker` arms
the periodic ticker, `stopTicker` disarms it, and `initTicker` installs
the callback without arming (the spec's invariant `armed iff
disableCount == 0 && tickInterval != 0` together with `disableCount = 1`
at init requires the ticker to start disarmed). -/
structure TimerCtl where
  timerDisabled : Nat
  tickerArmed : Bool
deriving DecidableEq

/-- `initTimer` from `rts/Timer.c`: `initTicker` is called when
`tickInterval != 0` (installing the callback, not arming), then
`timer_disabled = 1`. -/
def initTimer : TimerCtl := ⟨1, false⟩

/-- `startTimer` from `rts/Timer.c`: `atomic_dec(&timer_disabled)`; when
the new value is `0` and `tickInterval != 0`, `startTicker()` arms the
ticker. -/
def startTimer (tickInterval : Int) (s : TimerCtl) : TimerCtl :=
  let d := (s.timerDisabled + (timerWordSize - 1)) % timerWordSize
  ⟨d, if d = 0 then (if tickInterval ≠ 0 then true else s.tickerArmed)
      else s.tickerArmed⟩

/-- `stopTimer` from `rts/Timer.c`: `atomic_inc(&timer_disabled, 1)`; when
the new value is `1` and `tickInterval != 0`, `stopTicker()` disarms the
ticker. -/
def stopTimer (tickInterval : Int) (s : TimerCtl) : TimerCtl :=
  let d := (s.timerDisabled + 1) % timerWordSize
  ⟨d, if d = 1 then (if tickInterval ≠ 0 then false else s.tickerArmed)
      else s.tickerArmed⟩

/-- Run a sequence of `startTimer`/`stopTimer` calls. -/
def runTimerOps (tickInterval : Int) (ops : List TimerOp) (s : TimerCtl) :
    TimerCtl :=
  ops.foldl (fun st op =>
    match op with
    | .start => startTimer tickInterval st
    | .stop => stopTimer tickInterval st) s

/-- Number of `startTimer` calls in a sequence. -/
def countStarts (ops : List TimerOp) : Nat :=
  ops.countP (fun o => decide (o = TimerOp.start))

/-- Number of `stopTimer` calls in a sequence. -/
def countStops (ops : List TimerOp) : Nat :=
  ops.countP (fun o => decide (o = TimerOp.stop))

/-- The net outstanding stop count after `initTimer` (which sets the
disable counter to 1) and a sequence of start/stop calls. -/
def netDisabled (ops : List TimerOp) : Int :=
  1 + (countStops ops : Int) - (countStarts ops : Int)

/-- Concrete poll environment for witnesses: every `poll()` times out. -/
def envPollTimeout : Nat → Int → PollCall := fun _ _ => ⟨0, 0⟩

/-- Concrete `select()` environment for witnesses: every call times out. -/
def envSelTimeout : Nat → Option (Int × Int) → PollCall := fun _ _ => ⟨0, 0⟩

/-- Concrete wait environment for witnesses: the handle always signals. -/
def envObj0 : Nat → Nat → WaitRes := fun _ _ => .object 0

/-- Concrete clock for witnesses. -/
def nowAtZero : Nat → Int := fun _ => 0

/-- A buffered console event that is not a keypress (a mouse event). -/
def mouseEvt : ConsoleEvent := ⟨2, false, 0⟩

/-- A genuine key-down event with ASCII character 97. -/
def keyAEvt : ConsoleEvent := ⟨1, true, 97⟩

/-- Configuration used in the C4 counterexample: context-switch period of
2 ticks. -/
def cfgC4 : RtsConfig := ⟨2, 0, 1, false, false, false, false, true, false, false⟩

/-- The initial `Timer.c` counter state (`ticks_to_ctxt_switch = 0`,
`ticks_to_gc = 0`), with `recent_activity` inactive so the idle-GC part of
the tick does nothing. -/
def sC4 : TickState := ⟨0, 0, Activity.inactive⟩

/-- Configuration used in the C3 witness: `idleGCDelayTime = 3` ticks worth,
`tickInterval = 1`, idle GC enabled, threaded RTS. -/
def cfgC3 : RtsConfig := ⟨0, 3, 1, true, false, false, false, true, false, false⟩

/-- A state with recent activity `Yes`, used in the C3 witness. -/
def sYes : TickState := ⟨0, 0, Activity.yes⟩

/-- Configuration used in the C9 witness: non-threaded RTS on Windows
(`mingw`), context-switch period 2. -/
def cfgC9 : RtsConfig := ⟨2, 0, 1, false, false, false, false, false, true, false⟩

/-- Rounding-up property of `compute_poll_timeout`: whenever `remaining`
does not exceed `poll()`'s widest representable timeout, the timeout
actually passed to `poll()` covers all of `remaining`. -/
theorem le_msToTime_compute_poll_timeout (r : Int) (h : r ≤ msToTime intMax) :
    r ≤ msToTime (compute_poll_timeout false r) := by
  simp only [compute_poll_timeout, Bool.false_eq_true, if_false, msToTime,
    timeToMS, intMax] at *
  split_ifs with h1 h2 h3
  · omega
  · omega
  · omega
  · rw [not_not] at h3
    omega

/-- Invariant of the `poll()` loop (finite-timeout case): the deadline never
exceeds `base + remaining`, and a `NotReady` return can only happen from an
iteration whose `remaining` fits `poll()`'s timeout range. -/
theorem fdReadyPollLoop_inv (env : Nat → Int → PollCall) (endTime : Int) :
    ∀ (fuel : Nat) (base remaining : Int) (n : Nat) (v b r : Int) (m : Nat),
      fdReadyPollLoop env false endTime fuel base remaining n
        = some (v, b, r, m) →
      endTime ≤ base + remaining →
      endTime ≤ b + r ∧ (v = 0 → r ≤ msToTime intMax) := by
  intro fuel
  induction fuel with
  | zero =>
    intro base remaining n v b r m h
    simp [fdReadyPollLoop] at h
  | succ k ih =>
    intro base remaining n v b r m h hbr
    simp only [fdReadyPollLoop] at h
    split at h
    · exact ih _ _ _ _ _ _ _ h (by omega)
    · rename_i hcond
      simp only [Option.some.injEq, Prod.mk.injEq] at h
      obtain ⟨hv, hb, hr, _⟩ := h
      refine ⟨by omega, fun hv0 => ?_⟩
      by_contra hgt
      push_neg at hgt
      have hres0 : (env n (compute_poll_timeout false remaining)).res = 0 := by
        by_cases hres : 0 < (env n (compute_poll_timeout false remaining)).res
        · rw [← hv] at hv0
          rw [if_pos hres] at hv0
          exact absurd hv0 (by norm_num)
        · rw [← hv] at hv0
          rwa [if_neg hres] at hv0
      exact hcond ⟨hres0, by trivial, by omega⟩

/-- Claim C1: for `wait(descriptor, direction, timeoutMillis, socketHint)`
with `timeoutMillis ≥ 0` on the single-descriptor poll path, a `NotReady`
(0) return can only happen after a `poll()` syscall has itself returned at
a monotonic time `≥` the deadline `startTime + timeoutMillis` computed at
call start.  `hpoll` is the poll-timing fact for the final syscall: a
timed-out `poll()` returns no earlier than its issue time (which is at or
after the clock reading `b` that fixed the final `remaining`) plus its
timeout; any `retTime` satisfying it is past the deadline.  In particular
the function never reports `NotReady` from a clock check after an
interrupted or width-split poll: interruptions return `-1` and width-split
timeouts reissue the poll with a recomputed `remaining`. -/
theorem fdReady_notReady_after_deadline
    (env : Nat → Int → PollCall) (startTime msecs : Int) (fuel : Nat)
    (b r : Int) (m : Nat) (retTime : Int)
    (hms : 0 ≤ msecs)
    (hrun : fdReady env startTime msecs fuel = some (0, b, r, m))
    (hpoll : b + msToTime (compute_poll_timeout false r) ≤ retTime) :
    startTime + msToTime msecs ≤ retTime := by
  unfold fdReady at hrun
  rw [decide_eq_false (by omega : ¬msecs < 0)] at hrun
  rcases lt_or_eq_of_le hms with hpos | hzero
  · rw [if_pos hpos] at hrun
    have hinv := fdReadyPollLoop_inv env (startTime + msToTime msecs) fuel
      startTime (msToTime msecs) 0 0 b r m hrun (by omega)
    have hrd := le_msToTime_compute_poll_timeout r (hinv.2 rfl)
    have h1 := hinv.1
    omega
  · rw [if_neg (by omega)] at hrun
    subst hzero
    cases fuel with
    | zero => simp [fdReadyPollLoop] at hrun
    | succ k =>
      simp only [fdReadyPollLoop] at hrun
      rw [if_neg (fun hc => absurd hc.2.2 (by decide))] at hrun
      simp only [Option.some.injEq, Prod.mk.injEq] at hrun
      obtain ⟨_, hb, hr, _⟩ := hrun
      rw [← hb, ← hr] at hpoll
      have e2 : compute_poll_timeout false (msToTime 0) = 0 := by decide
      rw [e2] at hpoll
      have e1 : msToTime 0 = 0 := by decide
      omega

/-- Witness for C1 at a concrete input: a 3 ms timeout against a `poll()`
that times out; the final poll's return time `3000000` ns meets the
deadline. -/
theorem fdReady_notReady_after_deadline_witness :
    (0 : Int) ≤ 3 ∧
    fdReady envPollTimeout 0 3 1 = some (0, 0, msToTime 3, 1) ∧
    (0 : Int) + msToTime (compute_poll_timeout false (msToTime 3)) ≤ 3000000 ∧
    (0 : Int) + msToTime 3 ≤ 3000000 :=
  ⟨by decide, by decide, by decide,
   fdReady_notReady_after_deadline envPollTimeout 0 3 1 0 (msToTime 3) 1
     3000000 (by decide) (by decide) (by decide)⟩

/-- Claim C10: on the single-descriptor poll path with `timeoutMillis = 0`,
exactly one `poll()` syscall is issued, with timeout `0` (non-blocking),
and its (clamped) result is returned immediately: the width-splitting
retry branch is never taken because `remaining = 0` does not exceed
`poll()`'s maximum representable timeout. -/
theorem fdReady_zero_timeout_single_poll (env : Nat → Int → PollCall)
    (startTime : Int) (fuel : Nat) :
    fdReady env startTime 0 (fuel + 1) =
      some ((if 0 < (env 0 0).res then 1 else (env 0 0).res),
        startTime, 0, 1) ∧
    compute_poll_timeout false 0 = 0 := by
  refine ⟨?_, by decide⟩
  unfold fdReady
  rw [decide_eq_false (by omega : ¬(0:Int) < 0), if_neg (by omega)]
  simp only [fdReadyPollLoop]
  rw [if_neg (fun hc => absurd hc.2.2 (by decide))]
  have e2 : compute_poll_timeout false (msToTime 0) = 0 := by decide
  have e1 : msToTime 0 = 0 := by decide
  rw [e2, e1]

/-- Claim C8 (code bug): `compute_WaitForObject_timeout` promises (in the
source's own comment) never to return the `INFINITE` sentinel unless
`infinite` was requested, yet for any finite `remaining` with a fractional
millisecond part in `(MSToTime (INFINITE-1), MSToTime INFINITE)` the
round-up `remaining_ms + 1` produces exactly `INFINITE`: here
`remaining = 4294967294000001` ns (`= (INFINITE - 1) ms + 1 ns`) is
non-negative, strictly below the `INFINITE - 1` cap's guard, and the
function returns `INFINITE`, so the native wait would block forever. -/
theorem compute_WaitForObject_timeout_INFINITE_bug :
    compute_WaitForObject_timeout false 4294967294000001 = INFINITE ∧
    (0 : Int) ≤ 4294967294000001 ∧
    (4294967294000001 : Int) < msToTime (INFINITE : Int) := by
  decide

/-- Claim C5: on the `FILE_TYPE_PIPE` path, a successful non-blocking peek
seeing zero bytes with a caller that intends to block (`infinite` or
`remaining > 0` — e.g. `timeoutMillis = 50`) sleeps exactly one minimal
1 ms quantum and returns `NotReady` (so with `timeoutMillis = 50` the call
takes about one quantum, not 50 ms); a peek failing with
`ERROR_BROKEN_PIPE` returns `Ready`. -/
theorem fdReadyPipe_semantics (infinite : Bool) (remaining : Int)
    (hblock : infinite = true ∨ 0 < remaining) :
    fdReadyPipe infinite remaining (.ok 0) = .notReadyAfterSleep 1 ∧
    fdReadyPipe false (msToTime 50) (.ok 0) = .notReadyAfterSleep 1 ∧
    fdReadyPipe infinite remaining (.failedErr ERROR_BROKEN_PIPE) = .ready := by
  refine ⟨?_, by decide, by simp [fdReadyPipe]⟩
  have hb : (infinite || decide (0 < remaining)) = true := by
    rcases hblock with h | h
    · simp [h]
    · simp [h]
  simp [fdReadyPipe, hb]

/-- Witness for C5 at a concrete input: a 50 ms timeout and an empty
pipe. -/
theorem fdReadyPipe_semantics_witness :
    (false = true ∨ (0 : Int) < msToTime 50) ∧
    fdReadyPipe false (msToTime 50) (.ok 0) = .notReadyAfterSleep 1 :=
  ⟨Or.inr (by decide),
   (fdReadyPipe_semantics false (msToTime 50) (Or.inr (by decide))).1⟩

/-- Claim C7 counterexample: a socket descriptor with numeric value `-1`
(or any value out of the `fd_set` range) is not propagated to the caller
as an error result: the Windows socket path calls `barf()`, aborting the
whole process, before any readiness wait is attempted.  The extra
conjuncts record that this `fatalBarf` outcome is distinct from the
error-return outcomes the claim promises. -/
theorem fdReadyWinSock_negative_fd_fatal :
    fdReadyWinSock envSelTimeout (-1) false 0 (msToTime 50) 1 =
      SockResult.fatalBarf ∧
    SockResult.fatalBarf ≠
      SockResult.loopResult (some ((-1 : Int), msToTime 50, 1)) ∧
    SockResult.fatalBarf ≠
      SockResult.loopResult (some (0, msToTime 50, 1)) := by
  decide

/-- Claim C7 (amended): an in-range socket descriptor never triggers the
fatal abort — the call proceeds to the `select()` loop, whose failures
surface to the caller as a negative return value; on the generic handle
path a `WAIT_FAILED` is likewise propagated as `-1` (with `errno` mapped),
never swallowed.  Only a socket descriptor that is negative or
`≥ FD_SETSIZE` escalates to a process abort (see the counterexample). -/
theorem fdReady_error_propagation
    (env : Nat → Option (Int × Int) → PollCall) (fd : Int)
    (infinite : Bool) (endTime remaining : Int) (fuel : Nat)
    (h0 : 0 ≤ fd) (h1 : fd < FD_SETSIZE) :
    fdReadyWinSock env fd infinite endTime remaining fuel =
      SockResult.loopResult (selectLoop env infinite endTime fuel remaining 0) ∧
    fdReadyWinSock env fd infinite endTime remaining fuel ≠
      SockResult.fatalBarf ∧
    (∀ (env2 : Nat → Option (Int × Int) → PollCall) (inf2 : Bool)
       (eT rem : Int) (f n : Nat),
       (env2 n (compute_windows_select_timeout inf2 rem)).res < 0 →
       selectLoop env2 inf2 eT (f + 1) rem n =
         some ((env2 n (compute_windows_select_timeout inf2 rem)).res,
           rem, n + 1)) ∧
    (∀ (env3 : Nat → Nat → WaitRes) (nowAt : Nat → Int) (inf3 : Bool)
       (eT rem : Int) (f n : Nat),
       env3 n (compute_WaitForObject_timeout inf3 rem) = WaitRes.failed →
       genericWaitLoop env3 nowAt inf3 eT (f + 1) rem n =
         some (FdReturn.ret (-1) false, n + 1)) := by
  have hrange : ¬(FD_SETSIZE ≤ fd ∨ fd < 0) := by omega
  refine ⟨?_, ?_, ?_, ?_⟩
  · unfold fdReadyWinSock
    rw [if_neg hrange]
  · unfold fdReadyWinSock
    rw [if_neg hrange]
    simp
  · intro env2 inf2 eT rem f n hres
    simp only [selectLoop]
    rw [if_neg (fun hc => by omega)]
    rw [if_neg (by omega)]
  · intro env3 nowAt inf3 eT rem f n hres
    simp [genericWaitLoop, hres]

/-- Witness for the amended C7 at a concrete in-range descriptor. -/
theorem fdReady_error_propagation_witness :
    (0 : Int) ≤ 5 ∧ (5 : Int) < FD_SETSIZE ∧
    fdReadyWinSock envSelTimeout 5 false 0 0 1 ≠ SockResult.fatalBarf :=
  ⟨by decide, by decide,
   (fdReady_error_propagation envSelTimeout 5 false 0 0 1 (by decide)
     (by decide)).2.1⟩

/-- Closed form of the console drain loop: it succeeds iff the buffer
contains a genuine key-down event, and the buffer that remains is the
original one with every earlier non-keypress event consumed and
discarded. -/
theorem drainConsoleInput_eq (buf : List ConsoleEvent) :
    drainConsoleInput buf =
      ((if buf.any isKeyDownEvent then some 1 else none),
        buf.dropWhile (fun e => ! isKeyDownEvent e)) := by
  induction buf with
  | nil => simp [drainConsoleInput]
  | cons e rest ih =>
    by_cases h : isKeyDownEvent e
    · simp [drainConsoleInput, List.any_cons, List.dropWhile_cons, h]
    · simp [drainConsoleInput, List.any_cons, List.dropWhile_cons, h, ih]

/-- Claim C6: on the console path, a wake from the handle drains and
discards every buffered event that is not a genuine key-down with a
non-null character, until a real keystroke (`Ready`), the deadline
(`NotReady`), or cancellation (`Error(interrupted)`).  Conjuncts:
(1) the drain loop discards exactly the leading non-keypress events and
reports a key iff one is buffered; (2) concretely, a queued mouse event
followed by a key-down of ASCII 97 yields `Ready` with the mouse event
consumed and the keypress still buffered for the subsequent read;
(3) cancellation (`WAIT_OBJECT_0 + 1`) yields `Error(interrupted)` (-1
with `errno = EINTR`) at that iteration; (4) a genuine timeout yields
`NotReady`. -/
theorem console_wait_semantics :
    (∀ buf : List ConsoleEvent,
      drainConsoleInput buf =
        ((if buf.any isKeyDownEvent then some 1 else none),
          buf.dropWhile (fun e => ! isKeyDownEvent e))) ∧
    consoleWaitLoop envObj0 nowAtZero false (msToTime 1000) 1 (msToTime 1000)
      [mouseEvt, keyAEvt] 0 = some (.ret 1 false, [keyAEvt], 1) ∧
    (∀ (env : Nat → Nat → WaitRes) (nowAt : Nat → Int) (infinite : Bool)
       (endTime remaining : Int) (buf : List ConsoleEvent) (fuel n : Nat),
       env n (compute_WaitForObject_timeout infinite remaining) =
         WaitRes.object 1 →
       consoleWaitLoop env nowAt infinite endTime (fuel + 1) remaining buf n =
         some (.ret (-1) true, buf, n + 1)) ∧
    (∀ (env : Nat → Nat → WaitRes) (nowAt : Nat → Int)
       (endTime remaining : Int) (buf : List ConsoleEvent) (fuel n : Nat),
       env n (compute_WaitForObject_timeout false remaining) =
         WaitRes.timedOut →
       remaining < msToTime (INFINITE : Int) →
       consoleWaitLoop env nowAt false endTime (fuel + 1) remaining buf n =
         some (.ret 0 false, buf, n + 1)) := by
  refine ⟨drainConsoleInput_eq, by decide, ?_, ?_⟩
  · intro env nowAt infinite endTime remaining buf fuel n h
    simp [consoleWaitLoop, h]
  · intro env nowAt endTime remaining buf fuel n h hlt
    simp [consoleWaitLoop, h, hlt]

/-- The non-threaded interruption effects of `handle_tick` track the
context-switch request: `SetEvent` fires exactly when a switch was
requested on a non-threaded mingw build, `interruptOSThreadTimer` exactly
when a switch was requested on a non-threaded build using a timer
thread (pthread itimer or mingw). -/
theorem handle_tick_effects (cfg : RtsConfig) (s : TickState) :
    (handle_tick cfg s).2.interruptEventSet =
      ((handle_tick cfg s).2.ctxtSwitchRequested && !cfg.threaded &&
        cfg.mingw) ∧
    (handle_tick cfg s).2.osThreadInterrupted =
      ((handle_tick cfg s).2.ctxtSwitchRequested && !cfg.threaded &&
        (cfg.usePthreadItimer || cfg.mingw)) := by
  obtain ⟨tc, gc, a⟩ := s
  cases a <;> (simp [handle_tick]; try (split_ifs <;> simp))

/-- Claim C9: when `handle_tick` requests a global context switch on a
build where the tick itself does not interrupt blocking calls
(non-threaded, mingw or pthread-itimer), the per-worker interruption is
raised within the same `handle_tick` invocation (so before it returns):
`interruptOSThreadTimer` is called, and on mingw the
`interruptOSThreadEvent` is signalled.  A `wait()` blocked in the native
multi-object wait that observes the raised event (`WAIT_OBJECT_0 + 1`)
returns `Error(interrupted)` at that very iteration, not after the full
requested duration. -/
theorem tick_interrupt_raised_before_return (cfg : RtsConfig) (s : TickState)
    (hthr : cfg.threaded = false)
    (hbuild : cfg.mingw = true ∨ cfg.usePthreadItimer = true)
    (hreq : (handle_tick cfg s).2.ctxtSwitchRequested = true) :
    (handle_tick cfg s).2.osThreadInterrupted = true ∧
    (cfg.mingw = true → (handle_tick cfg s).2.interruptEventSet = true) ∧
    (∀ (env : Nat → Nat → WaitRes) (nowAt : Nat → Int) (infinite : Bool)
       (endTime remaining : Int) (fuel n : Nat),
       env n (compute_WaitForObject_timeout infinite remaining) =
         WaitRes.object 1 →
       genericWaitLoop env nowAt infinite endTime (fuel + 1) remaining n =
         some (FdReturn.ret (-1) true, n + 1)) := by
  have he := handle_tick_effects cfg s
  refine ⟨?_, fun hm => ?_, ?_⟩
  · rw [he.2, hreq, hthr]
    rcases hbuild with h | h <;> simp [h]
  · rw [he.1, hreq, hthr, hm]
    simp
  · intro env nowAt infinite endTime remaining fuel n h
    simp [genericWaitLoop, h]

/-- Witness for C9 at a concrete input: non-threaded mingw build,
context-switch period 2, starting from the initial counter state, where
the very first tick requests a switch. -/
theorem tick_interrupt_raised_before_return_witness :
    cfgC9.threaded = false ∧
    (cfgC9.mingw = true ∨ cfgC9.usePthreadItimer = true) ∧
    (handle_tick cfgC9 sC4).2.ctxtSwitchRequested = true ∧
    (handle_tick cfgC9 sC4).2.osThreadInterrupted = true :=
  ⟨by decide, Or.inl (by decide), by decide,
   (tick_interrupt_raised_before_return cfgC9 sC4 (by decide)
     (Or.inl (by decide)) (by decide)).1⟩

/-- Claim C4 counterexample: from the initial counter state
(`ticks_to_ctxt_switch = 0`) with a configured period of 2, the first tick
decrements the counter to `-1` — it does not "reach 0" — and yet a global
context switch is requested (and the counter is reset to the period).
This refutes "no context-switch request is issued on ticks where the
counter does not reach 0": the code requests a switch whenever the
decremented counter is `≤ 0`, not exactly `= 0`, and it decrements based
on the configured period being positive, not on the counter being
positive. -/
theorem ctxt_switch_zero_counter_counterexample :
    (handle_tick cfgC4 sC4).2.ctxtSwitchRequested = true ∧
    sC4.ticksToCtxtSwitch - 1 = -1 ∧
    ((-1 : Int) = 0) = False ∧
    (handle_tick cfgC4 sC4).1.ticksToCtxtSwitch = 2 := by
  refine ⟨by decide, by decide, by simp, by decide⟩

/-- Claim C4 (amended): when the configured period `ctxtSwitchTicks` is
positive, each tick decrements the counter and requests a context switch
exactly when the decremented counter is `≤ 0` (resetting it to the
period); in particular no request is issued on ticks where the decremented
counter is still positive.  When the period is 0 the counter is untouched
and no switch is ever requested. -/
theorem ctxt_switch_step (cfg : RtsConfig) (s : TickState) :
    (0 < cfg.ctxtSwitchTicks →
      ((handle_tick cfg s).2.ctxtSwitchRequested = true ↔
        s.ticksToCtxtSwitch - 1 ≤ 0) ∧
      (handle_tick cfg s).1.ticksToCtxtSwitch =
        (if s.ticksToCtxtSwitch - 1 ≤ 0 then cfg.ctxtSwitchTicks
         else s.ticksToCtxtSwitch - 1) ∧
      (0 < s.ticksToCtxtSwitch - 1 →
        (handle_tick cfg s).2.ctxtSwitchRequested = false ∧
        (handle_tick cfg s).1.ticksToCtxtSwitch = s.ticksToCtxtSwitch - 1)) ∧
    (cfg.ctxtSwitchTicks ≤ 0 →
      (handle_tick cfg s).2.ctxtSwitchRequested = false ∧
      (handle_tick cfg s).1.ticksToCtxtSwitch = s.ticksToCtxtSwitch) := by
  obtain ⟨tc, gc, a⟩ := s
  constructor
  · intro h
    cases a <;> (simp [handle_tick, h]; try (split_ifs <;> simp_all))
  · intro h
    have h2 : ¬0 < cfg.ctxtSwitchTicks := by omega
    cases a <;> (simp [handle_tick, h2]; try (split_ifs <;> simp_all))

/-- `countStarts` over a cons cell. -/
theorem countStarts_cons (o : TimerOp) (l : List TimerOp) :
    countStarts (o :: l) =
      countStarts l + (if o = TimerOp.start then 1 else 0) := by
  simp [countStarts, List.countP_cons]

/-- `countStops` over a cons cell. -/
theorem countStops_cons (o : TimerOp) (l : List TimerOp) :
    countStops (o :: l) =
      countStops l + (if o = TimerOp.stop then 1 else 0) := by
  simp [countStops, List.countP_cons]

/-- One `startTimer` step from a positive, in-range counter: the counter
decrements (no wrap), and the ticker ends up armed iff the counter reached
0 with a nonzero tick interval. -/
theorem startTimer_spec (tickInterval : Int) (s : TimerCtl)
    (h1 : 1 ≤ s.timerDisabled) (h2 : s.timerDisabled < timerWordSize)
    (hinv : s.tickerArmed = true ↔ (s.timerDisabled = 0 ∧ tickInterval ≠ 0)) :
    (startTimer tickInterval s).timerDisabled = s.timerDisabled - 1 ∧
    ((startTimer tickInterval s).tickerArmed = true ↔
      (s.timerDisabled - 1 = 0 ∧ tickInterval ≠ 0)) := by
  obtain ⟨d, arm⟩ := s
  simp only [startTimer, timerWordSize] at *
  have hd : (d + (18446744073709551616 - 1)) % 18446744073709551616
      = d - 1 := by omega
  rw [hd]
  refine ⟨rfl, ?_⟩
  split_ifs with h3 h4
  · simp [h3, h4]
  · rw [hinv]
    constructor
    · rintro ⟨h5, h6⟩; exact absurd h6 h4
    · rintro ⟨h5, h6⟩; exact absurd h6 h4
  · rw [hinv]
    constructor
    · rintro ⟨h5, h6⟩; omega
    · rintro ⟨h5, h6⟩; omega

/-- One `stopTimer` step from an in-range counter: the counter increments
(no wrap), and the ticker always ends up disarmed-or-unchanged, matching
`armed iff counter = 0`: the incremented counter is never 0. -/
theorem stopTimer_spec (tickInterval : Int) (s : TimerCtl)
    (h2 : s.timerDisabled + 1 < timerWordSize)
    (hinv : s.tickerArmed = true ↔ (s.timerDisabled = 0 ∧ tickInterval ≠ 0)) :
    (stopTimer tickInterval s).timerDisabled = s.timerDisabled + 1 ∧
    ((stopTimer tickInterval s).tickerArmed = true ↔
      (s.timerDisabled + 1 = 0 ∧ tickInterval ≠ 0)) := by
  obtain ⟨d, arm⟩ := s
  simp only [stopTimer, timerWordSize] at *
  have hd : (d + 1) % 18446744073709551616 = d + 1 := by omega
  rw [hd]
  refine ⟨rfl, ?_⟩
  split_ifs with h3 h4
  · simp
  · rw [hinv]
    constructor
    · rintro ⟨h5, h6⟩; exact absurd h6 h4
    · rintro ⟨h5, h6⟩; omega
  · rw [hinv]
    constructor
    · rintro ⟨h5, h6⟩; omega
    · rintro ⟨h5, h6⟩
      exact h5.elim

/-- Invariant of a well-nested run of `startTimer`/`stopTimer` calls: as
long as the running disable count (counted in `ℤ`) never goes negative and
never reaches the word size on any prefix, the word tracks it exactly, and
the ticker is armed iff the count is 0 and the tick interval nonzero. -/
theorem runTimerOps_netDisabled (tickInterval : Int) :
    ∀ (ops : List TimerOp) (s : TimerCtl),
      s.timerDisabled < timerWordSize →
      (s.tickerArmed = true ↔ (s.timerDisabled = 0 ∧ tickInterval ≠ 0)) →
      (∀ k : Nat, k ≤ ops.length → 0 ≤ (s.timerDisabled : Int)
          + countStops (ops.take k) - countStarts (ops.take k)) →
      (∀ k : Nat, k ≤ ops.length → (s.timerDisabled : Int)
          + countStops (ops.take k) - countStarts (ops.take k)
          < (timerWordSize : Int)) →
      ((runTimerOps tickInterval ops s).timerDisabled : Int)
          = (s.timerDisabled : Int) + countStops ops - countStarts ops ∧
      ((runTimerOps tickInterval ops s).tickerArmed = true ↔
        ((s.timerDisabled : Int) + countStops ops - countStarts ops = 0
          ∧ tickInterval ≠ 0)) := by
  intro ops
  induction ops with
  | nil =>
    intro s hlt hinv _ _
    refine ⟨by simp [runTimerOps, countStarts, countStops], ?_⟩
    rw [show runTimerOps tickInterval [] s = s from rfl, hinv]
    simp [countStarts, countStops]
  | cons op rest ih =>
    intro s hlt hinv hlo hhi
    cases op with
    | start =>
      have h1 := hlo 1 (by simp)
      simp [List.take_succ_cons, countStarts_cons, countStops_cons,
        countStarts, countStops] at h1
      have hd1 : 1 ≤ s.timerDisabled := by omega
      have hspec := startTimer_spec tickInterval s hd1 hlt hinv
      have hstep : runTimerOps tickInterval (TimerOp.start :: rest) s
          = runTimerOps tickInterval rest (startTimer tickInterval s) := by
        simp [runTimerOps]
      rw [hstep]
      have hrec := ih (startTimer tickInterval s)
        (by omega)
        (by rw [hspec.2, hspec.1])
        (by
          intro k hk
          have := hlo (k + 1) (by simp; omega)
          rw [List.take_succ_cons, countStarts_cons, countStops_cons] at this
          rw [hspec.1]
          simp at this ⊢
          omega)
        (by
          intro k hk
          have := hhi (k + 1) (by simp; omega)
          rw [List.take_succ_cons, countStarts_cons, countStops_cons] at this
          rw [hspec.1]
          simp at this ⊢
          omega)
      rw [countStarts_cons, countStops_cons]
      have hcast : ((startTimer tickInterval s).timerDisabled : Int)
          = (s.timerDisabled : Int) - 1 := by rw [hspec.1]; omega
      rw [hcast] at hrec
      refine ⟨by rw [hrec.1]; simp; omega, ?_⟩
      rw [hrec.2]
      simp
      omega
    | stop =>
      have h1 := hhi 1 (by simp)
      simp [List.take_succ_cons, countStarts_cons, countStops_cons,
        countStarts, countStops] at h1
      have hd1 : s.timerDisabled + 1 < timerWordSize := by omega
      have hspec := stopTimer_spec tickInterval s hd1 hinv
      have hstep : runTimerOps tickInterval (TimerOp.stop :: rest) s
          = runTimerOps tickInterval rest (stopTimer tickInterval s) := by
        simp [runTimerOps]
      rw [hstep]
      have hrec := ih (stopTimer tickInterval s)
        (by omega)
        (by rw [hspec.2, hspec.1])
        (by
          intro k hk
          have := hlo (k + 1) (by simp; omega)
          rw [List.take_succ_cons, countStarts_cons, countStops_cons] at this
          rw [hspec.1]
          simp at this ⊢
          omega)
        (by
          intro k hk
          have := hhi (k + 1) (by simp; omega)
          rw [List.take_succ_cons, countStarts_cons, countStops_cons] at this
          rw [hspec.1]
          simp at this ⊢
          omega)
      rw [countStarts_cons, countStops_cons]
      have hcast : ((stopTimer tickInterval s).timerDisabled : Int)
          = (s.timerDisabled : Int) + 1 := by rw [hspec.1]; omega
      rw [hcast] at hrec
      refine ⟨by rw [hrec.1]; simp; omega, ?_⟩
      rw [hrec.2]
      simp
      omega

/-- Claim C2 counterexample: after `initTimer` followed by two unbalanced
`startTimer` calls (tick interval 1), the `StgWord` counter has wrapped to
`2^64 - 1` and the ticker is (still) armed, while the net outstanding stop
count `1 + #stop - #start` is `-1`, not `0`: the claimed "armed iff net
count = 0" equivalence fails for sequences that are not well nested. -/
theorem timer_unbalanced_start_counterexample :
    (runTimerOps 1 [TimerOp.start, TimerOp.start] initTimer).tickerArmed
      = true ∧
    netDisabled [TimerOp.start, TimerOp.start] = -1 ∧
    (runTimerOps 1 [TimerOp.start, TimerOp.start] initTimer).timerDisabled
      = 18446744073709551615 := by
  refine ⟨by decide, by decide, by decide⟩

/-- Claim C2 (amended): `initTimer` sets the disable counter to 1 with the
ticker disarmed; for every finite sequence of `startTimer`/`stopTimer`
calls that is well nested — the running net count `1 + #stop - #start`
stays within `[0, 2^64)` on every prefix — the hardware ticker is armed
iff the net count is 0 and the tick interval is nonzero, and the counter
word equals the net count.  Moreover `startTimer` arms the ticker exactly
on the counter transition to 0 and `stopTimer` disarms it exactly on the
transition from 0 to 1 (both only when the tick interval is nonzero). -/
theorem timer_armed_iff_net_zero (tickInterval : Int) (ops : List TimerOp)
    (hlo : ∀ k : Nat, k ≤ ops.length →
      0 ≤ 1 + (countStops (ops.take k) : Int) - countStarts (ops.take k))
    (hhi : ∀ k : Nat, k ≤ ops.length →
      1 + (countStops (ops.take k) : Int) - countStarts (ops.take k)
        < (timerWordSize : Int)) :
    ((runTimerOps tickInterval ops initTimer).tickerArmed = true ↔
      (netDisabled ops = 0 ∧ tickInterval ≠ 0)) ∧
    ((runTimerOps tickInterval ops initTimer).timerDisabled : Int)
        = netDisabled ops ∧
    (∀ s : TimerCtl, 1 ≤ s.timerDisabled → s.timerDisabled < timerWordSize →
      (startTimer tickInterval s).tickerArmed =
        (if s.timerDisabled = 1 ∧ tickInterval ≠ 0 then true
         else s.tickerArmed)) ∧
    (∀ s : TimerCtl, s.timerDisabled + 1 < timerWordSize →
      (stopTimer tickInterval s).tickerArmed =
        (if s.timerDisabled = 0 ∧ tickInterval ≠ 0 then false
         else s.tickerArmed)) := by
  have hmain := runTimerOps_netDisabled tickInterval ops initTimer
    (by simp [initTimer, timerWordSize])
    (by simp [initTimer])
    (by
      intro k hk
      have := hlo k hk
      simp [initTimer]
      omega)
    (by
      intro k hk
      have := hhi k hk
      simp [initTimer]
      omega)
  refine ⟨?_, ?_, ?_, ?_⟩
  · rw [hmain.2]
    unfold netDisabled
    constructor
    · rintro ⟨h5, h6⟩
      refine ⟨by simp [initTimer] at h5; omega, h6⟩
    · rintro ⟨h5, h6⟩
      refine ⟨by simp [initTimer]; omega, h6⟩
  · rw [hmain.1]
    unfold netDisabled
    simp [initTimer]
  · intro s h1 h2
    obtain ⟨d, arm⟩ := s
    simp only [startTimer, timerWordSize] at *
    have hd : (d + (18446744073709551616 - 1)) % 18446744073709551616
        = d - 1 := by omega
    rw [hd]
    split_ifs with ha hb hc <;> (simp_all; try omega)
  · intro s h2
    obtain ⟨d, arm⟩ := s
    simp only [stopTimer, timerWordSize] at *
    have hd : (d + 1) % 18446744073709551616 = d + 1 := by omega
    rw [hd]
    split_ifs with ha hb hc <;> simp_all

/-- Witness for the amended C2: the well-nested sequence
stop; start; start starting from `initTimer`, with tick interval 5: the
net count returns to 0 and the ticker ends up armed. -/
theorem timer_armed_iff_net_zero_witness :
    (∀ k : Nat, k ≤ ([TimerOp.stop, TimerOp.start, TimerOp.start]).length →
      0 ≤ 1 + (countStops (([TimerOp.stop, TimerOp.start,
            TimerOp.start]).take k) : Int)
        - countStarts (([TimerOp.stop, TimerOp.start,
            TimerOp.start]).take k)) ∧
    ((runTimerOps 5 [TimerOp.stop, TimerOp.start, TimerOp.start]
        initTimer).tickerArmed = true ↔
      (netDisabled [TimerOp.stop, TimerOp.start, TimerOp.start] = 0
        ∧ (5 : Int) ≠ 0)) :=
  ⟨by decide,
   (timer_armed_iff_net_zero 5 [TimerOp.stop, TimerOp.start, TimerOp.start]
     (by decide) (by decide)).1⟩

/-- Tick from activity `Yes`: move to `MaybeNo` and arm the countdown. -/
theorem handle_tick_yes (cfg : RtsConfig) (s : TickState)
    (h : s.recentActivity = .yes) :
    (handle_tick cfg s).1.recentActivity = .maybeNo ∧
    (handle_tick cfg s).1.ticksToGC =
      cfg.idleGCDelayTime / cfg.tickInterval ∧
    (handle_tick cfg s).2.idleGCWakeup = false ∧
    (handle_tick cfg s).2.stopTimerCalled = false := by
  obtain ⟨tc, gc, a⟩ := s
  simp only at h
  subst h
  simp [handle_tick]

/-- Tick from `MaybeNo` with a nonzero countdown: decrement, no request. -/
theorem handle_tick_maybeNo_pos (cfg : RtsConfig) (s : TickState)
    (h : s.recentActivity = .maybeNo) (hgc : s.ticksToGC ≠ 0) :
    (handle_tick cfg s).1.recentActivity = .maybeNo ∧
    (handle_tick cfg s).1.ticksToGC = s.ticksToGC - 1 ∧
    (handle_tick cfg s).2.idleGCWakeup = false ∧
    (handle_tick cfg s).2.stopTimerCalled = false := by
  obtain ⟨tc, gc, a⟩ := s
  simp only at h hgc
  subst h
  simp [handle_tick, hgc]

/-- Tick from `MaybeNo` with countdown 0 and idle GC enabled: request the
idle GC (`wakeUpRts`, threaded builds) and move to `Inactive`. -/
theorem handle_tick_maybeNo_zero_enabled (cfg : RtsConfig) (s : TickState)
    (h : s.recentActivity = .maybeNo) (hgc : s.ticksToGC = 0)
    (hdo : cfg.doIdleGC = true) :
    (handle_tick cfg s).1.recentActivity = .inactive ∧
    (handle_tick cfg s).1.ticksToGC = s.ticksToGC ∧
    (handle_tick cfg s).2.idleGCWakeup = cfg.threaded ∧
    (handle_tick cfg s).2.stopTimerCalled = false := by
  obtain ⟨tc, gc, a⟩ := s
  simp only at h hgc
  subst h
  simp [handle_tick, hgc, hdo]

/-- Tick from `MaybeNo` with countdown 0 and idle GC disabled: move to
`DoneGC` and stop the timer, unless a profiling build is actually
profiling (heap profile or cost centres). -/
theorem handle_tick_maybeNo_zero_disabled (cfg : RtsConfig) (s : TickState)
    (h : s.recentActivity = .maybeNo) (hgc : s.ticksToGC = 0)
    (hdo : cfg.doIdleGC = false) :
    (handle_tick cfg s).1.recentActivity = .doneGC ∧
    (handle_tick cfg s).2.idleGCWakeup = false ∧
    (handle_tick cfg s).2.stopTimerCalled =
      !(cfg.profilingBuild && (cfg.doHeapProfile || cfg.doCostCentres)) := by
  obtain ⟨tc, gc, a⟩ := s
  simp only at h hgc
  subst h
  cases hp : cfg.profilingBuild <;> simp [handle_tick, hgc, hdo, hp]

/-- Ticks from `Inactive` or `DoneGC` leave the activity state and
countdown unchanged and issue no request. -/
theorem handle_tick_absorbing (cfg : RtsConfig) (s : TickState)
    (h : s.recentActivity = .inactive ∨ s.recentActivity = .doneGC) :
    (handle_tick cfg s).1.recentActivity = s.recentActivity ∧
    (handle_tick cfg s).1.ticksToGC = s.ticksToGC ∧
    (handle_tick cfg s).2.idleGCWakeup = false ∧
    (handle_tick cfg s).2.stopTimerCalled = false := by
  obtain ⟨tc, gc, a⟩ := s
  simp only at h
  rcases h with h | h <;> subst h <;> simp [handle_tick]

/-- `tickRun` at 0. -/
theorem tickRun_zero (cfg : RtsConfig) (s : TickState) :
    tickRun cfg s 0 = (s, 0) := rfl

/-- One unfolding of `tickRun`. -/
theorem tickRun_succ (cfg : RtsConfig) (s : TickState) (n : Nat) :
    tickRun cfg s (n + 1) =
      ((handle_tick cfg (tickRun cfg s n).1).1,
       (tickRun cfg s n).2 +
         (if (handle_tick cfg (tickRun cfg s n).1).2.idleGCWakeup then 1
          else 0)) := rfl

/-- During the countdown phase of a no-activity run from `Yes`, tick
`k + 1` (for `k ≤ D`) finds the machine in `MaybeNo` with countdown
`D - k`, and no idle-GC request has been issued yet. -/
theorem tickRun_countdown (cfg : RtsConfig) (tc gc0 D : Int)
    (hD : D = cfg.idleGCDelayTime / cfg.tickInterval) :
    ∀ k : Nat, (k : Int) ≤ D →
      (tickRun cfg ⟨tc, gc0, .yes⟩ (k + 1)).1.recentActivity = .maybeNo ∧
      (tickRun cfg ⟨tc, gc0, .yes⟩ (k + 1)).1.ticksToGC = D - k ∧
      (tickRun cfg ⟨tc, gc0, .yes⟩ (k + 1)).2 = 0 := by
  intro k
  induction k with
  | zero =>
    intro _
    have h := handle_tick_yes cfg ⟨tc, gc0, .yes⟩ (by simp)
    rw [tickRun_succ, tickRun_zero]
    dsimp only
    refine ⟨h.1, ?_, ?_⟩
    · rw [h.2.1, hD]
      simp
    · simp only [h.2.2.1]
      simp
  | succ k ih =>
    intro hk
    have hk' : (k : Int) ≤ D := by push_cast at hk ⊢; omega
    obtain ⟨ha, hgc, hc⟩ := ih hk'
    have hpos : (tickRun cfg ⟨tc, gc0, .yes⟩ (k + 1)).1.ticksToGC ≠ 0 := by
      rw [hgc]
      push_cast at hk
      omega
    have h := handle_tick_maybeNo_pos cfg
      (tickRun cfg ⟨tc, gc0, .yes⟩ (k + 1)).1 ha hpos
    rw [tickRun_succ]
    dsimp only
    refine ⟨h.1, ?_, ?_⟩
    · rw [h.2.1, hgc]
      push_cast
      ring
    · simp only [hc, h.2.2.1]
      simp

/-- From tick `D + 2` on, a no-activity run from `Yes` (idle GC enabled,
threaded) sits in `Inactive` with exactly one idle-GC request issued. -/
theorem tickRun_requested (cfg : RtsConfig) (tc gc0 D : Int)
    (hD : D = cfg.idleGCDelayTime / cfg.tickInterval) (hD0 : 0 ≤ D)
    (hdo : cfg.doIdleGC = true) (hthr : cfg.threaded = true) :
    ∀ n : Nat,
      (tickRun cfg ⟨tc, gc0, .yes⟩ (D.toNat + 2 + n)).1.recentActivity
        = .inactive ∧
      (tickRun cfg ⟨tc, gc0, .yes⟩ (D.toNat + 2 + n)).2 = 1 := by
  intro n
  induction n with
  | zero =>
    have hcast : ((D.toNat : Int)) = D := Int.toNat_of_nonneg hD0
    obtain ⟨ha, hgc, hc⟩ := tickRun_countdown cfg tc gc0 D hD D.toNat
      (by omega)
    have hz : (tickRun cfg ⟨tc, gc0, .yes⟩ (D.toNat + 1)).1.ticksToGC
        = 0 := by
      rw [hgc]
      omega
    have h := handle_tick_maybeNo_zero_enabled cfg
      (tickRun cfg ⟨tc, gc0, .yes⟩ (D.toNat + 1)).1 ha hz hdo
    have hstep : D.toNat + 2 + 0 = (D.toNat + 1) + 1 := by omega
    rw [hstep, tickRun_succ]
    dsimp only
    refine ⟨h.1, ?_⟩
    simp only [hc, h.2.2.1, hthr]
    simp
  | succ n ih =>
    have h := handle_tick_absorbing cfg
      (tickRun cfg ⟨tc, gc0, .yes⟩ (D.toNat + 2 + n)).1 (Or.inl ih.1)
    have hstep : D.toNat + 2 + (n + 1) = (D.toNat + 2 + n) + 1 := by omega
    rw [hstep, tickRun_succ]
    dsimp only
    refine ⟨by rw [h.1, ih.1], ?_⟩
    simp only [ih.2, h.2.2.1]
    simp

/-- Claim C3: the idle-GC state machine steps of `handle_tick`, with
`D = idleGCDelayTime / tickInterval`: `Yes → MaybeNo` arming the countdown
to `D`; `MaybeNo` with positive countdown decrements; `MaybeNo` with
countdown 0 requests an idle GC and moves to `Inactive` when idle GC is
enabled (the request, `wakeUpRts`, is issued on threaded builds), else
moves to `DoneGC` and stops the timer unless the profiler is active;
`Inactive`/`DoneGC` absorb subsequent ticks.  Consequently, along a
no-activity run from `Yes` (idle GC enabled, threaded) no request is
issued during the first `D + 1` ticks and exactly one request has been
issued at every tick from `D + 2` on. -/
theorem idle_gc_state_machine (cfg : RtsConfig) (s : TickState) (D : Int)
    (hD : D = cfg.idleGCDelayTime / cfg.tickInterval) (hD0 : 0 ≤ D) :
    (s.recentActivity = .yes →
      (handle_tick cfg s).1.recentActivity = .maybeNo ∧
      (handle_tick cfg s).1.ticksToGC = D ∧
      (handle_tick cfg s).2.idleGCWakeup = false) ∧
    (s.recentActivity = .maybeNo → 0 < s.ticksToGC →
      (handle_tick cfg s).1.recentActivity = .maybeNo ∧
      (handle_tick cfg s).1.ticksToGC = s.ticksToGC - 1 ∧
      (handle_tick cfg s).2.idleGCWakeup = false) ∧
    (s.recentActivity = .maybeNo → s.ticksToGC = 0 → cfg.doIdleGC = true →
      (handle_tick cfg s).1.recentActivity = .inactive ∧
      (handle_tick cfg s).2.idleGCWakeup = cfg.threaded ∧
      (handle_tick cfg s).2.stopTimerCalled = false) ∧
    (s.recentActivity = .maybeNo → s.ticksToGC = 0 → cfg.doIdleGC = false →
      (handle_tick cfg s).1.recentActivity = .doneGC ∧
      (handle_tick cfg s).2.idleGCWakeup = false ∧
      (handle_tick cfg s).2.stopTimerCalled =
        !(cfg.profilingBuild && (cfg.doHeapProfile || cfg.doCostCentres))) ∧
    ((s.recentActivity = .inactive ∨ s.recentActivity = .doneGC) →
      (handle_tick cfg s).1.recentActivity = s.recentActivity ∧
      (handle_tick cfg s).1.ticksToGC = s.ticksToGC ∧
      (handle_tick cfg s).2.idleGCWakeup = false) ∧
    (cfg.doIdleGC = true → cfg.threaded = true → ∀ tc gc0 : Int,
      (∀ m : Nat, m ≤ D.toNat + 1 →
        (tickRun cfg ⟨tc, gc0, .yes⟩ m).2 = 0) ∧
      (∀ n : Nat,
        (tickRun cfg ⟨tc, gc0, .yes⟩ (D.toNat + 2 + n)).2 = 1)) := by
  refine ⟨?_, ?_, ?_, ?_, ?_, ?_⟩
  · intro h
    have hy := handle_tick_yes cfg s h
    exact ⟨hy.1, by rw [hy.2.1, hD], hy.2.2.1⟩
  · intro h hpos
    have hm := handle_tick_maybeNo_pos cfg s h (by omega)
    exact ⟨hm.1, hm.2.1, hm.2.2.1⟩
  · intro h hz hdo
    have hm := handle_tick_maybeNo_zero_enabled cfg s h hz hdo
    exact ⟨hm.1, hm.2.2.1, hm.2.2.2⟩
  · intro h hz hdo
    exact handle_tick_maybeNo_zero_disabled cfg s h hz hdo
  · intro h
    have ha := handle_tick_absorbing cfg s h
    exact ⟨ha.1, ha.2.1, ha.2.2.1⟩
  · intro hdo hthr tc gc0
    constructor
    · intro m hm
      match m with
      | 0 => rw [tickRun_zero]
      | k + 1 =>
        have hk : (k : Int) ≤ D := by omega
        exact (tickRun_countdown cfg tc gc0 D hD k hk).2.2
    · intro n
      exact (tickRun_requested cfg tc gc0 D hD hD0 hdo hthr n).2

/-- Witness for C3 at a concrete input: delay of 3 ticks
(`idleGCDelayTime = 3`, `tickInterval = 1`, so `D = 3`), idle GC enabled,
threaded: no request in the first 4 ticks, exactly one at tick 5. -/
theorem idle_gc_state_machine_witness :
    (3 : Int) = cfgC3.idleGCDelayTime / cfgC3.tickInterval ∧
    (0 : Int) ≤ 3 ∧
    (tickRun cfgC3 ⟨0, 0, .yes⟩ 4).2 = 0 ∧
    (tickRun cfgC3 ⟨0, 0, .yes⟩ 5).2 = 1 :=
  ⟨by decide, by decide,
   ((idle_gc_state_machine cfgC3 sYes 3 (by decide)
       (by decide)).2.2.2.2.2 rfl rfl 0 0).1 4 (by decide),
   ((idle_gc_state_machine cfgC3 sYes 3 (by decide)
       (by decide)).2.2.2.2.2 rfl rfl 0 0).2 0⟩
